import Mathlib

/-!
Verification of the `myrient-linklist-generator` crawler
(`src/myrient_zip_crawler.py`) against its natural-language specification.

The Python code is shallowly embedded over `Str := List Char` (a Python `str`
is a sequence of code points, and Python's string comparison is lexicographic
on code points, which coincides with the `LinearOrder` on `List Char`).
Pure methods of `MyrientZipCrawler` become Lean functions of the same name;
the shared mutable crawl state becomes an explicit `CrawlState` record and a
fuel-indexed run function; the thread pool of `worker` becomes a small-step
transition relation `WStep`.  The two stdlib collaborators the crawler uses
(`urllib.parse.urlparse` / `urljoin`) are modelled: `urlparse` by
`urlNetloc` / `urlPath` restricted to the two fields the code reads, and
`urljoin` as an oracle parameter `resolve` of the traversal functions.
-/

abbrev Str := List Char

/-- Python `str.lower()` (ASCII case folding, which covers every URL and
extension string the crawler manipulates). -/
def pyLower (s : Str) : Str := s.map Char.toLower

/-- Python `str.strip()` with no argument: remove leading and trailing
whitespace. -/
def pyStrip (s : Str) : Str :=
  ((s.dropWhile Char.isWhitespace).reverse.dropWhile Char.isWhitespace).reverse

/-- Python `s.endswith(suffix)`. -/
def pyEndsWith (s suf : Str) : Bool := suf.isSuffixOf s

/-- Python `s.startswith(pre)`. -/
def pyStartsWith (s pre : Str) : Bool := pre.isPrefixOf s

/-- Python `s.rstrip('/')`: remove every trailing `/`. -/
def rstripSlash (s : Str) : Str := (s.reverse.dropWhile (· == '/')).reverse

/-- Python `s.split(sep)` for a one-character separator `sep` (no maxsplit):
`"".split(c) = [""]`, and empty fields between consecutive separators are
kept. -/
def splitChar (sep : Char) : Str → List Str
  | [] => [[]]
  | c :: cs =>
    match splitChar sep cs with
    | [] => [[]]
    | h :: t => if c = sep then [] :: h :: t else (c :: h) :: t

/-- Characters Python's `urlparse` accepts inside a scheme. -/
def isSchemeChar (c : Char) : Bool := c.isAlphanum || c == '+' || c == '-' || c == '.'

/-- Model of the URL-parsing collaborator `urllib.parse.urlparse`, step 1:
strip a leading `scheme:` when present (a scheme is a nonempty run of scheme
characters starting with a letter, terminated by `:`). -/
def splitScheme (s : Str) : Str :=
  let pre := s.takeWhile isSchemeChar
  match s.drop pre.length with
  | ':' :: r =>
    match pre with
    | c :: _ => if c.isAlpha then r else s
    | [] => s
  | _ => s

/-- Model of `urlparse(s).netloc`: present exactly when what follows the
scheme starts with `//`, and extending to the next `/`, `?` or `#`. -/
def urlNetloc (s : Str) : Str :=
  let rest := splitScheme s
  if pyStartsWith rest ['/', '/'] then
    (rest.drop 2).takeWhile (fun c => c != '/' && c != '?' && c != '#')
  else []

/-- Model of `urlparse(s).path`: what remains after the scheme and netloc,
up to any query or fragment. -/
def urlPath (s : Str) : Str :=
  let rest := splitScheme s
  let rest2 :=
    if pyStartsWith rest ['/', '/'] then
      (rest.drop 2).dropWhile (fun c => c != '/' && c != '?' && c != '#')
    else rest
  rest2.takeWhile (fun c => c != '?' && c != '#')

/-- `MyrientZipCrawler.is_valid_url` (src/myrient_zip_crawler.py lines
70-94): same netloc as the base URL, the trailing-slash-stripped path is a
string prefix of the candidate's, and the candidate's `/`-split path has at
least as many parts as the base's. -/
def is_valid_url (base_url url : Str) : Bool :=
  if urlNetloc url ≠ urlNetloc base_url then false
  else
    let base_path := rstripSlash (urlPath base_url)
    let url_path := rstripSlash (urlPath url)
    if ¬ pyStartsWith url_path base_path then false
    else
      let base_path_parts := if base_path.isEmpty then [] else splitChar '/' base_path
      let url_path_parts := if url_path.isEmpty then [] else splitChar '/' url_path
      if url_path_parts.length < base_path_parts.length then false
      else true

/-- Line 43 of `MyrientZipCrawler.__init__`: the comma-separated
`file_types` configuration string becomes the list
`[f".{ext.strip().lower()}" for ext in file_types.split(",")]`. -/
def parse_file_types (file_types : Str) : List Str :=
  (splitChar ',' file_types).map (fun ext => '.' :: pyLower (pyStrip ext))

/-- `MyrientZipCrawler.is_target_file` (lines 96-99): the lowercased URL
ends with one of the parsed extension strings. -/
def is_target_file (file_types : List Str) (url : Str) : Bool :=
  file_types.any (fun ext => pyEndsWith (pyLower url) ext)

/-- `MyrientZipCrawler.is_directory` (lines 101-103). -/
def is_directory (url : Str) : Bool := pyEndsWith url ['/']

/-- The denylist of `MyrientZipCrawler.should_skip_file` (lines 111-119). -/
def skip_extensions : List Str :=
  ([".mp4", ".avi", ".mkv", ".mov", ".wmv", ".flv", ".webm",
    ".mp3", ".wav", ".flac", ".aac", ".ogg", ".m4a",
    ".jpg", ".jpeg", ".png", ".gif", ".bmp", ".tiff", ".webp",
    ".pdf", ".doc", ".docx", ".txt", ".rtf",
    ".exe", ".msi", ".dmg", ".pkg", ".deb", ".rpm",
    ".iso", ".bin", ".cue", ".img",
    ".json", ".xml", ".csv", ".sql", ".db", ".sqlite"].map String.data)

/-- `MyrientZipCrawler.should_skip_file` (lines 105-121): never skip a
target file; otherwise skip when the lowercased URL ends with a denylisted
extension. -/
def should_skip_file (file_types : List Str) (url : Str) : Bool :=
  if is_target_file file_types url then false
  else skip_extensions.any (fun ext => pyEndsWith (pyLower url) ext)

/-- The three-way classification the link-processing branch of
`extract_links` (lines 143-159) performs on an in-scope absolute URL. -/
inductive LinkClass where
  | TargetFile
  | Directory
  | Ignored
deriving DecidableEq

/-- The branch order of `extract_links` on one in-scope absolute URL:
target-file check first, then the skip denylist, then the trailing-slash
directory check; everything else is dropped. -/
def classify (file_types : List Str) (url : Str) : LinkClass :=
  if is_target_file file_types url then .TargetFile
  else if should_skip_file file_types url then .Ignored
  else if is_directory url then .Directory
  else .Ignored

/-- Python `set.add` on a set modelled as a duplicate-free list. -/
def insertSet (u : Str) (s : List Str) : List Str := if u ∈ s then s else u :: s

/-- Accumulator of `extract_links`: the local `links` list of directory URLs
and the shared `zip_urls` set. -/
structure ExtractAcc where
  links : List Str
  zips : List Str
deriving DecidableEq

/-- One iteration of the `for anchor in soup.find_all(...)` loop of
`extract_links` (lines 129-163): skip the `../` and `..` anchors, resolve
the href against the current URL, and then scope-filter, collect target
files, drop denylisted files, and append directories to the local list. -/
def extractStep (file_types : List Str) (base_url : Str) (resolve : Str → Str → Str)
    (current_url : Str) (acc : ExtractAcc) (href : Str) : ExtractAcc :=
  if href = "../".data ∨ href = "..".data then acc
  else
    let absolute_url := resolve current_url href
    if is_valid_url base_url absolute_url then
      if is_target_file file_types absolute_url then
        { acc with zips := insertSet absolute_url acc.zips }
      else if should_skip_file file_types absolute_url then acc
      else if is_directory absolute_url then
        { acc with links := acc.links ++ [absolute_url] }
      else acc
    else acc

/-- `MyrientZipCrawler.extract_links` (lines 123-163), with the HTML
collaborator already reduced to the ordered href list it yields and the
`urljoin` collaborator passed as `resolve`. -/
def extract_links (file_types : List Str) (base_url : Str) (resolve : Str → Str → Str)
    (current_url : Str) (hrefs : List Str) (zips : List Str) : ExtractAcc :=
  hrefs.foldl (extractStep file_types base_url resolve current_url) ⟨[], zips⟩

/-- The shared mutable state of one crawl: the work queue, the visited set,
the collected target set, and a ghost trace `enqueued` recording every URL
ever put on the queue (the seed of `__init__` line 68 included), in order. -/
structure CrawlState where
  url_queue : List Str
  visited_urls : List Str
  zip_urls : List Str
  enqueued : List Str
deriving DecidableEq

/-- Lines 192-196 of `crawl_url`: under the lock, enqueue a discovered link
iff it was not yet visited, marking it visited. -/
def claimAndPush (st : CrawlState) (link : Str) : CrawlState :=
  if link ∈ st.visited_urls then st
  else { st with visited_urls := link :: st.visited_urls,
                 url_queue := st.url_queue ++ [link],
                 enqueued := st.enqueued ++ [link] }

/-- `MyrientZipCrawler.crawl_url` (lines 165-201).  The fetch collaborator
returns `none` on any `RequestException` (timeout, transport failure, or the
non-2xx statuses `raise_for_status` turns into an exception), in which case
the handler only logs and the state is left untouched; on success it returns
the href list extracted from the body. -/
def crawl_url (file_types : List Str) (base_url : Str) (resolve : Str → Str → Str)
    (fetch : Str → Option (List Str)) (st : CrawlState) (url : Str) : CrawlState :=
  if ¬ is_directory url then st
  else
    match fetch url with
    | none => st
    | some hrefs =>
      let acc := extract_links file_types base_url resolve url hrefs st.zip_urls
      acc.links.foldl claimAndPush { st with zip_urls := acc.zips }

/-- The state right after `__init__` (lines 46-68): empty visited and target
sets, the normalized base URL seeded on the queue. -/
def initState (base_url : Str) : CrawlState :=
  { url_queue := [base_url], visited_urls := [], zip_urls := [], enqueued := [base_url] }

/-- Fuel-indexed sequential run of the dequeue-and-crawl loop: pop the head
of the queue and process it with `crawl_url`.  This is the data flow of the
worker loop with the thread interleaving collapsed. -/
def runCrawl (file_types : List Str) (base_url : Str) (resolve : Str → Str → Str)
    (fetch : Str → Option (List Str)) : Nat → CrawlState → CrawlState
  | 0, st => st
  | fuel + 1, st =>
    match st.url_queue with
    | [] => st
    | url :: rest =>
      runCrawl file_types base_url resolve fetch fuel
        (crawl_url file_types base_url resolve fetch
          { st with url_queue := rest } url)

/-- `MyrientZipCrawler.crawl` followed by reading the final state: run the
loop from the freshly constructed state. -/
def crawl (file_types : List Str) (base_url : Str) (resolve : Str → Str → Str)
    (fetch : Str → Option (List Str)) (fuel : Nat) : CrawlState :=
  runCrawl file_types base_url resolve fetch fuel (initState base_url)

/-- Python's built-in `sorted` on strings: stable ascending sort by the
lexicographic code-point order. -/
def sortStrs (l : List Str) : List Str := l.insertionSort (· ≤ ·)

/-- The lines `save_results` writes, in order: the collected set (a Python
set, hence duplicate-free) sorted ascending. -/
def outputLines (zip_urls : List Str) : List Str := sortStrs zip_urls.dedup

/-- `MyrientZipCrawler.save_results` (lines 231-237): the file content,
`f"{url}\n"` for each sorted collected URL and nothing else (the UTF-8 byte
encoding of this code-point sequence is the file-writing collaborator). -/
def save_results (zip_urls : List Str) : Str :=
  ((outputLines zip_urls).map (fun url => url ++ ['\n'])).flatten

/-- Outcome of the `try` block of `main` (lines 337-350). -/
inductive RunOutcome where
  | completed (found : Nat) (output : Str)
  | interrupted
  | failed (msg : Str)

/-- The lines `main` prints after the crawl attempt (lines 341-350): the
success summary in the `try` body, or the handler message of
`KeyboardInterrupt` / generic `Exception`. -/
def mainSummary : RunOutcome → List Str
  | .completed found output =>
      ["\nCrawling completed successfully!".data,
       "Found ".data ++ (toString found).data ++ " target files".data,
       "Results saved to: ".data ++ output]
  | .interrupted => ["\nCrawling interrupted by user".data]
  | .failed msg => ["\nCrawling failed: ".data ++ msg]

/-- Status of one worker thread of `crawl` (lines 203-227): blocked on
`url_queue.get`, busy inside `crawl_url`, or returned from `worker`. -/
inductive WStatus where
  | idle
  | fetching (url : Str)
  | stopped
deriving DecidableEq

/-- The pool state: the shared queue and every worker's status. -/
structure PoolState where
  queue : List Str
  workers : List WStatus
deriving DecidableEq

def isFetching : WStatus → Bool
  | .fetching _ => true
  | _ => false

/-- Number of workers currently mid-fetch (between a successful `get` and
`task_done`). -/
def inFlight (s : PoolState) : Nat := (s.workers.filter isFetching).length

/-- Small-step semantics of the `worker` loop (lines 203-211).  `pop`: a
blocked worker obtains the queue head.  `timeout`: `get(timeout=5)` raises
`queue.Empty` — possible exactly when the queue is empty — and the worker
breaks out of its loop unconditionally.  `finish`: a busy worker completes
`crawl_url`, which may have pushed new links (`produce u`), and loops back
to `get`. -/
inductive WStep (produce : Str → List Str) : PoolState → PoolState → Prop where
  | pop (i : Nat) (u : Str) (rest : List Str) (ws : List WStatus)
      (h : ws[i]? = some .idle) :
      WStep produce ⟨u :: rest, ws⟩ ⟨rest, ws.set i (.fetching u)⟩
  | timeout (i : Nat) (ws : List WStatus) (h : ws[i]? = some .idle) :
      WStep produce ⟨[], ws⟩ ⟨[], ws.set i .stopped⟩
  | finish (i : Nat) (u : Str) (q : List Str) (ws : List WStatus)
      (h : ws[i]? = some (.fetching u)) :
      WStep produce ⟨q, ws⟩ ⟨q ++ produce u, ws.set i .idle⟩

/-- The in-scope predicate as the specification words it: equal host, and
the candidate's path split on separators and stripped of empty segments is
an element-wise prefix-extension (never shorter) of the root's. -/
def inScopeSpec (base_url url : Str) : Bool :=
  urlNetloc url == urlNetloc base_url &&
    (let bs := (splitChar '/' (urlPath base_url)).filter (fun seg => ¬ seg.isEmpty)
     let us := (splitChar '/' (urlPath url)).filter (fun seg => ¬ seg.isEmpty)
     decide (bs.length ≤ us.length) && us.take bs.length == bs)

/-- Resolution of `..` segments in a path, for stating the normalization
half of the scope claim: a `..` segment removes the preceding segment. -/
def resolveDots (segs : List Str) : List Str :=
  segs.foldl (fun acc seg => if seg = "..".data then acc.dropLast else acc ++ [seg]) []

/-- Path segments of a URL: split on `/`, empty segments dropped. -/
def pathSegments (url : Str) : List Str :=
  (splitChar '/' (urlPath url)).filter (fun seg => ¬ seg.isEmpty)

/-- Python `sub in s` on strings: substring containment. -/
def containsSub (s sub : Str) : Bool := decide (sub <:+: s)

/-- Root URL of the concrete scenarios (spec section 8). -/
def exRoot : Str := "http://h/files/".data

/-- A subdirectory of the scenario tree. -/
def exSub : Str := "http://h/files/a/".data

/-- Model of the `urljoin` collaborator at the inputs the scenarios use: an
absolute href is returned as is, a relative one (no `.` segments) is
appended to the current directory URL. -/
def exResolve (current_url href : Str) : Str :=
  if pyStartsWith href "http://".data then href else current_url ++ href

/-- Fetch oracle of the re-enqueue scenario: the root page links to the
subdirectory `a/`, whose page links back to the root by absolute URL. -/
def exFetch (url : Str) : Option (List Str) :=
  if url = exRoot then some ["a/".data]
  else if url = exSub then some [exRoot]
  else none

/-- Fetch oracle of the collection scenario: the root page links to `a/`, a
zip file, and a denylisted file; the `a/` page holds another zip and a `../`
anchor. -/
def exFetchTree (url : Str) : Option (List Str) :=
  if url = exRoot then some ["a/".data, "x.zip".data, "v.mp4".data]
  else if url = exSub then some ["y.zip".data, "../".data]
  else none

/-- Work produced by the slow worker of the premature-stop scenario. -/
def exProduce (url : Str) : List Str := if url = exRoot then [exSub] else []

/-- The enqueue-accounting invariant of a crawl state: the multiset of URLs
ever enqueued is the visited set plus one extra occurrence of the seed (the
seed of `__init__` line 68 is put on the queue without being added to
`visited_urls`). -/
def EnqueueInv (base_url : Str) (st : CrawlState) : Prop :=
  ∀ u : Str, st.enqueued.count u =
    (if u ∈ st.visited_urls then 1 else 0) + (if u = base_url then 1 else 0)

-- Sanity examples (concrete evaluations of the embedding).
example : is_valid_url "https://myrient.erista.me/files/".data
    "https://myrient.erista.me/files/No-Intro/".data = true := by decide
example : is_valid_url "https://myrient.erista.me/files/".data
    "https://othersite.com/files/".data = false := by decide
example : is_target_file (parse_file_types "zip,7z".data)
    "https://myrient.erista.me/files/archive.7z".data = true := by decide
example : should_skip_file (parse_file_types "zip".data)
    "https://myrient.erista.me/files/video.mp4".data = true := by decide
example : classify (parse_file_types "zip".data)
    "https://myrient.erista.me/files/game.zip/".data = LinkClass.Directory := by decide

/-- C3: the scope filter does not compare path segments element-wise: it
uses a plain string-prefix test on the trailing-slash-stripped paths
(line 84), so the candidate `http://h/files2/x` — whose first segment merely
has the root segment `files` as a string prefix — is accepted, although the
specification's segment-wise filter (`inScopeSpec`) rejects it. -/
theorem C3_scope_accepts_sibling_with_string_prefix :
    is_valid_url exRoot "http://h/files2/x".data = true ∧
    inScopeSpec exRoot "http://h/files2/x".data = false := by decide

/-- C4: the scope filter never normalizes `..` segments — it counts the
literal `/`-split parts (lines 88-91) — so `http://h/files/../`, which
resolves to the parent of the root and has fewer normalized segments than
the root, is nevertheless judged in scope. -/
theorem C4_scope_accepts_dotdot_escape :
    is_valid_url exRoot "http://h/files/../".data = true ∧
    (resolveDots (pathSegments "http://h/files/../".data)).length
      < (pathSegments exRoot).length := by decide

/-- C1 counterexample: from the initial pool (root seeded, two idle
workers), worker 0 pops the root and is mid-fetch of a page that will
produce more work, yet worker 1's `get` timeout makes it stop — a `WStep`
to `stopped` taken while the number of mid-fetch workers is 1, not 0. -/
theorem C1_counterexample :
    Relation.ReflTransGen (WStep exProduce)
      ⟨[exRoot], [.idle, .idle]⟩ ⟨[], [.fetching exRoot, .idle]⟩ ∧
    WStep exProduce ⟨[], [.fetching exRoot, .idle]⟩
      ⟨[], [.fetching exRoot, .stopped]⟩ ∧
    inFlight ⟨[], [.fetching exRoot, .idle]⟩ = 1 ∧
    exProduce exRoot ≠ [] := by
  refine ⟨?_, ?_, by decide, by decide⟩
  · exact Relation.ReflTransGen.single
      (WStep.pop 0 exRoot [] [.idle, .idle] (by decide))
  · exact WStep.timeout 1 [.fetching exRoot, .idle] (by decide)

/-- C1 as amended: a worker transitions to `stopped` exactly on a pop
timeout — the pre-state queue is empty and the worker was idle — with no
check of the number of mid-fetch peers. -/
theorem C1_stop_on_timeout_ignores_in_flight (produce : Str → List Str)
    (s s2 : PoolState) (i : Nat) (hstep : WStep produce s s2)
    (hstop : s2.workers[i]? = some WStatus.stopped)
    (hpre : s.workers[i]? ≠ some WStatus.stopped) :
    s.queue = [] ∧ s.workers[i]? = some WStatus.idle := by
  cases hstep with
  | pop j u rest ws h =>
    exfalso
    by_cases hij : j = i
    · subst hij
      rw [List.getElem?_set_self (List.getElem?_eq_some.mp h).1] at hstop
      simp at hstop
    · rw [List.getElem?_set_ne hij] at hstop
      exact hpre hstop
  | timeout j ws h =>
    by_cases hij : j = i
    · subst hij
      exact ⟨rfl, h⟩
    · rw [List.getElem?_set_ne hij] at hstop
      exact absurd hstop hpre
  | finish j u q ws h =>
    exfalso
    by_cases hij : j = i
    · subst hij
      rw [List.getElem?_set_self (List.getElem?_eq_some.mp h).1] at hstop
      simp at hstop
    · rw [List.getElem?_set_ne hij] at hstop
      exact hpre hstop

/-- Witness for the amended C1 theorem at a concrete timeout step. -/
theorem C1_stop_on_timeout_witness :
    (⟨[], [WStatus.idle]⟩ : PoolState).queue = [] ∧
    (⟨[], [WStatus.idle]⟩ : PoolState).workers[0]? = some WStatus.idle :=
  C1_stop_on_timeout_ignores_in_flight exProduce ⟨[], [.idle]⟩ ⟨[], [.stopped]⟩ 0
    (WStep.timeout 0 [.idle] (by decide)) (by decide) (by decide)

/-- C9 counterexample: the `KeyboardInterrupt` handler of `main` prints
only the fixed interruption message — no line carries the found-count
summary or the output path. -/
theorem C9_counterexample :
    mainSummary RunOutcome.interrupted = ["\nCrawling interrupted by user".data] ∧
    (mainSummary RunOutcome.interrupted).filter
        (fun l => containsSub l "Found ".data || containsSub l "Results saved to: ".data)
      = [] := by decide

/-- C9 as amended: on normal completion `main` prints the summary count of
target files and the output path, but on operator interruption it prints
only the fixed interruption message, with neither count nor path. -/
theorem C9_summary_only_on_completion (found : Nat) (output : Str) :
    (∃ l ∈ mainSummary (RunOutcome.completed found output),
        containsSub l "Found ".data = true ∧ containsSub l (toString found).data = true) ∧
    (∃ l ∈ mainSummary (RunOutcome.completed found output),
        containsSub l "Results saved to: ".data = true ∧ output.isSuffixOf l = true) ∧
    mainSummary RunOutcome.interrupted = ["\nCrawling interrupted by user".data] := by
  refine ⟨⟨"Found ".data ++ (toString found).data ++ " target files".data, ?_, ?_, ?_⟩,
         ⟨"Results saved to: ".data ++ output, ?_, ?_, ?_⟩, rfl⟩
  · simp [mainSummary]
  · exact decide_eq_true ⟨[], (toString found).data ++ " target files".data, by simp⟩
  · exact decide_eq_true ⟨"Found ".data, " target files".data, by simp⟩
  · simp [mainSummary]
  · exact decide_eq_true ⟨[], output, by simp⟩
  · rw [List.isSuffixOf_iff_suffix]
    exact List.suffix_append _ _

/-- C6 counterexample: a leading dot in a configured entry is not stripped —
`.zip` is parsed into the matcher suffix `..zip`, so the entries `zip` and
`.zip` do not configure the same behaviour (`a.zip` matches under the
former, not under the latter). -/
theorem C6_counterexample :
    parse_file_types ".zip".data = ["..zip".data] ∧
    is_target_file (parse_file_types ".zip".data) "a.zip".data = false ∧
    is_target_file (parse_file_types "zip".data) "a.zip".data = true := by decide

/-- C6 as amended: parsing lowercases each comma-separated entry and strips
surrounding whitespace but not leading dots; the matcher accepts exactly the
URLs whose lowercased form ends with a dot followed by the lowercased,
whitespace-stripped entry as written. -/
theorem C6_matcher_amended (file_types url : Str) :
    is_target_file (parse_file_types file_types) url = true ↔
      ∃ e, e ∈ splitChar ',' file_types ∧
        pyEndsWith (pyLower url) ('.' :: pyLower (pyStrip e)) = true := by
  simp only [is_target_file, parse_file_types, List.any_eq_true, List.mem_map]
  constructor
  · rintro ⟨ext, ⟨e, he, rfl⟩, hend⟩
    exact ⟨e, he, hend⟩
  · rintro ⟨e, he, hend⟩
    exact ⟨'.' :: pyLower (pyStrip e), ⟨e, he, rfl⟩, hend⟩

-- ### Lemmas about the string primitives

theorem mem_insertSet {u a : Str} {s : List Str} :
    u ∈ insertSet a s ↔ u = a ∨ u ∈ s := by
  unfold insertSet
  split
  · rename_i ha
    constructor
    · exact Or.inr
    · intro h
      rcases h with rfl | hu
      · exact ha
      · exact hu
  · simp [List.mem_cons]

theorem getLast?_of_pyEndsWith {s t : Str} (h : pyEndsWith s t = true) (ht : t ≠ []) :
    s.getLast? = t.getLast? := by
  unfold pyEndsWith at h
  rcases List.isSuffixOf_iff_suffix.mp h with ⟨p, rfl⟩
  exact List.getLast?_append_of_ne_nil p ht

theorem pyEndsWith_single {s : Str} {c : Char} :
    pyEndsWith s [c] = true ↔ s.getLast? = some c := by
  unfold pyEndsWith
  constructor
  · intro h
    rcases List.isSuffixOf_iff_suffix.mp h with ⟨p, rfl⟩
    simp
  · intro h
    refine List.isSuffixOf_iff_suffix.mpr ?_
    induction s with
    | nil => simp at h
    | cons a t ih =>
      cases t with
      | nil =>
        simp at h
        subst h
        exact List.suffix_refl _
      | cons b t2 =>
        rw [List.getLast?_cons_cons] at h
        rcases ih h with ⟨p, hp⟩
        exact ⟨a :: p, by rw [List.cons_append, hp]⟩

theorem getLast?_pyLower (s : Str) :
    (pyLower s).getLast? = s.getLast?.map Char.toLower := by
  unfold pyLower
  induction s with
  | nil => rfl
  | cons a t ih =>
    cases t with
    | nil => rfl
    | cons b t2 =>
      simpa using ih

/-- A URL ending in the path separator matches no nonempty suffix that does
not itself end in the separator. -/
theorem no_suffix_match_of_trailing_slash {exts : List Str} {url : Str}
    (hdir : is_directory url = true)
    (hno : ∀ ext ∈ exts, ext ≠ [] ∧ pyEndsWith ext ['/'] = false) :
    exts.any (fun ext => pyEndsWith (pyLower url) ext) = false := by
  cases hany : exts.any (fun ext => pyEndsWith (pyLower url) ext) with
  | false => rfl
  | true =>
    exfalso
    obtain ⟨ext, hmem, hend⟩ := List.any_eq_true.mp hany
    have hne := (hno ext hmem).1
    have hurl : url.getLast? = some '/' := pyEndsWith_single.mp hdir
    have hlow : (pyLower url).getLast? = some '/' := by
      rw [getLast?_pyLower, hurl]
      rfl
    have hlast : ext.getLast? = some '/' := by
      rw [← getLast?_of_pyEndsWith hend hne, hlow]
    have h3 : pyEndsWith ext ['/'] = true := pyEndsWith_single.mpr hlast
    rw [(hno ext hmem).2] at h3
    exact Bool.false_ne_true h3

theorem parse_file_types_ne_nil {cfg : Str} : ∀ ext ∈ parse_file_types cfg, ext ≠ [] := by
  intro ext h
  rcases List.mem_map.mp h with ⟨e, _, rfl⟩
  simp

-- ### The enqueue-accounting invariant (claim C2)

theorem claimAndPush_enqueueInv {base_url : Str} {st : CrawlState} (link : Str)
    (h : EnqueueInv base_url st) : EnqueueInv base_url (claimAndPush st link) := by
  intro u
  unfold claimAndPush
  split
  · exact h u
  · rename_i hnot
    simp only [List.count_append]
    rcases eq_or_ne u link with rfl | hne
    · rw [h u, if_neg hnot]
      simp [List.count_cons, List.mem_cons]
      omega
    · rw [h u]
      have hc : List.count u [link] = 0 := by
        simp [List.count_cons, Ne.symm hne]
      have hm : (u ∈ link :: st.visited_urls) ↔ (u ∈ st.visited_urls) := by
        simp [List.mem_cons, hne]
      rw [hc]
      simp only [hm]
      omega

theorem foldl_claimAndPush_enqueueInv {base_url : Str} :
    ∀ (links : List Str) (st : CrawlState), EnqueueInv base_url st →
      EnqueueInv base_url (links.foldl claimAndPush st)
  | [], _, h => h
  | link :: links, _, h =>
    foldl_claimAndPush_enqueueInv links _ (claimAndPush_enqueueInv link h)

theorem crawl_url_enqueueInv {base_url : Str} (file_types : List Str)
    (resolve : Str → Str → Str) (fetch : Str → Option (List Str))
    {st : CrawlState} (url : Str) (h : EnqueueInv base_url st) :
    EnqueueInv base_url (crawl_url file_types base_url resolve fetch st url) := by
  rw [crawl_url]
  split
  · exact h
  · rcases hf : fetch url with _ | hrefs
    · exact h
    · exact foldl_claimAndPush_enqueueInv _ _ (fun u => h u)

theorem runCrawl_enqueueInv {base_url : Str} (file_types : List Str)
    (resolve : Str → Str → Str) (fetch : Str → Option (List Str)) :
    ∀ (fuel : Nat) (st : CrawlState), EnqueueInv base_url st →
      EnqueueInv base_url (runCrawl file_types base_url resolve fetch fuel st)
  | 0, _, h => h
  | fuel + 1, st, h => by
    rw [runCrawl]
    split
    · exact h
    · exact runCrawl_enqueueInv file_types resolve fetch fuel _
        (crawl_url_enqueueInv file_types resolve fetch _ (fun u => h u))

theorem initState_enqueueInv (base_url : Str) : EnqueueInv base_url (initState base_url) := by
  intro u
  rcases eq_or_ne u base_url with rfl | hne
  · simp [initState, List.count_cons]
  · simp [initState, List.count_cons, hne, Ne.symm hne]

/-- C2 counterexample: with the root page linking to `a/` and the `a/` page
linking back to the root by absolute URL, a two-step crawl from the seeded
initial state enqueues the root URL twice (once at construction, once on
rediscovery), because `__init__` seeds the queue without putting the root in
`visited_urls`. -/
theorem C2_counterexample :
    (crawl (parse_file_types "zip".data) exRoot exResolve exFetch 2).enqueued
      = [exRoot, exSub, exRoot] ∧
    (crawl (parse_file_types "zip".data) exRoot exResolve exFetch 2).enqueued.count exRoot
      = 2 := by decide

/-- C2 as amended: at any point of a crawl, the multiset of URLs ever
enqueued is exactly the visited set plus one extra occurrence of the seeded
root; hence every non-root URL is enqueued at most once and the enqueued
set equals the visited set together with the root, but a later-discovered
link equal to the root is enqueued a second time. -/
theorem C2_enqueued_is_visited_plus_seed (file_types : List Str) (base_url : Str)
    (resolve : Str → Str → Str) (fetch : Str → Option (List Str)) (fuel : Nat) (u : Str) :
    (crawl file_types base_url resolve fetch fuel).enqueued.count u =
      (if u ∈ (crawl file_types base_url resolve fetch fuel).visited_urls then 1 else 0) +
        (if u = base_url then 1 else 0) :=
  runCrawl_enqueueInv file_types resolve fetch fuel (initState base_url)
    (initState_enqueueInv base_url) u

/-- C5: a URL ending in the path separator is always classified Directory —
never TargetFile, never Ignored — for any target-extension configuration
string whose parsed entries do not themselves end in the separator. -/
theorem C5_trailing_separator_is_directory (cfg url : Str)
    (hdir : is_directory url = true)
    (hext : ∀ ext ∈ parse_file_types cfg, pyEndsWith ext ['/'] = false) :
    classify (parse_file_types cfg) url = LinkClass.Directory := by
  have hno : ∀ ext ∈ parse_file_types cfg, ext ≠ [] ∧ pyEndsWith ext ['/'] = false :=
    fun ext hm => ⟨parse_file_types_ne_nil ext hm, hext ext hm⟩
  have ht : is_target_file (parse_file_types cfg) url = false :=
    no_suffix_match_of_trailing_slash hdir hno
  have hs : should_skip_file (parse_file_types cfg) url = false := by
    rw [should_skip_file, ht]
    simp only [Bool.false_eq_true, if_false]
    exact no_suffix_match_of_trailing_slash hdir (by decide)
  simp [classify, ht, hs, hdir]

/-- Witness for C5 at the spec's own edge case: a directory literally named
`game.zip/` under the configuration `zip`. -/
theorem C5_witness :
    classify (parse_file_types "zip".data) "http://h/files/game.zip/".data
      = LinkClass.Directory :=
  C5_trailing_separator_is_directory "zip".data "http://h/files/game.zip/".data
    (by decide) (by decide)

/-- C7: a failed fetch (timeout, transport failure, or non-2xx status, all
surfacing as `none` from the fetch collaborator) is isolated to its URL:
`crawl_url` leaves every component of the shared state unchanged (no retry,
no re-enqueue, nothing collected), and the run continues exactly as if the
offending URL had simply been removed from the queue. -/
theorem C7_fetch_failure_isolated (file_types : List Str) (base_url : Str)
    (resolve : Str → Str → Str) (fetch : Str → Option (List Str))
    (st : CrawlState) (url : Str) (fuel : Nat) (rest v z e : List Str)
    (hfail : fetch url = none) :
    crawl_url file_types base_url resolve fetch st url = st ∧
    runCrawl file_types base_url resolve fetch (fuel + 1) ⟨url :: rest, v, z, e⟩ =
      runCrawl file_types base_url resolve fetch fuel ⟨rest, v, z, e⟩ := by
  have hcu : ∀ s : CrawlState, crawl_url file_types base_url resolve fetch s url = s := by
    intro s
    rw [crawl_url]
    split
    · rfl
    · rw [hfail]
  refine ⟨hcu st, ?_⟩
  rw [runCrawl]
  exact congrArg _ (hcu _)

/-- Witness for C7: a fetch oracle that always fails, applied to the state
right after construction. -/
theorem C7_witness :
    crawl_url (parse_file_types "zip".data) exRoot exResolve (fun _ => none)
        (initState exRoot) exSub = initState exRoot ∧
    runCrawl (parse_file_types "zip".data) exRoot exResolve (fun _ => none) 1
        ⟨[exSub], [], [], []⟩ =
      runCrawl (parse_file_types "zip".data) exRoot exResolve (fun _ => none) 0
        ⟨[], [], [], []⟩ :=
  C7_fetch_failure_isolated (parse_file_types "zip".data) exRoot exResolve (fun _ => none)
    (initState exRoot) exSub 0 [] [] [] [] rfl

-- ### Lemmas about the sorted output (claims C8 and C10)

theorem mem_sortStrs {u : Str} {l : List Str} : u ∈ sortStrs l ↔ u ∈ l :=
  (List.perm_insertionSort _ l).mem_iff

theorem mem_outputLines {u : Str} {z : List Str} : u ∈ outputLines z ↔ u ∈ z :=
  mem_sortStrs.trans List.mem_dedup

theorem sorted_outputLines (z : List Str) : List.Sorted (· ≤ ·) (outputLines z) :=
  List.sorted_insertionSort _ _

theorem nodup_outputLines (z : List Str) : (outputLines z).Nodup :=
  (List.perm_insertionSort _ _).nodup_iff.mpr (List.nodup_dedup z)

theorem outputLines_eq_of_same_mem {z1 z2 : List Str} (h : ∀ u, u ∈ z1 ↔ u ∈ z2) :
    outputLines z1 = outputLines z2 := by
  have hperm : (z1.dedup).Perm (z2.dedup) := by
    apply List.perm_of_nodup_nodup_toFinset_eq (List.nodup_dedup z1) (List.nodup_dedup z2)
    ext a
    simp only [List.mem_toFinset, List.mem_dedup]
    exact h a
  have hp : (outputLines z1).Perm (outputLines z2) :=
    ((List.perm_insertionSort _ _).trans hperm).trans
      (List.perm_insertionSort _ _).symm
  exact List.eq_of_perm_of_sorted hp (sorted_outputLines z1) (sorted_outputLines z2)

-- ### The collected-set invariant (claim C10)

theorem extractStep_zips_sub {file_types : List Str} {base_url : Str}
    {resolve : Str → Str → Str} {current_url : Str} {acc : ExtractAcc} {href u : Str}
    (hu : u ∈ (extractStep file_types base_url resolve current_url acc href).zips) :
    u ∈ acc.zips ∨
      (is_valid_url base_url u = true ∧ is_target_file file_types u = true) := by
  rw [extractStep] at hu
  split at hu
  · exact Or.inl hu
  · dsimp only at hu
    split at hu
    · rename_i hvalid
      split at hu
      · rename_i htarget
        rcases mem_insertSet.mp hu with rfl | hz
        · exact Or.inr ⟨hvalid, htarget⟩
        · exact Or.inl hz
      · split at hu
        · exact Or.inl hu
        · split at hu
          · exact Or.inl hu
          · exact Or.inl hu
    · exact Or.inl hu

theorem foldl_extractStep_zips_sub {file_types : List Str} {base_url : Str}
    {resolve : Str → Str → Str} {current_url : Str} :
    ∀ (hrefs : List Str) (acc : ExtractAcc) (u : Str),
      u ∈ (hrefs.foldl (extractStep file_types base_url resolve current_url) acc).zips →
      u ∈ acc.zips ∨
        (is_valid_url base_url u = true ∧ is_target_file file_types u = true)
  | [], _, _, hu => Or.inl hu
  | href :: hrefs, acc, u, hu => by
    rcases foldl_extractStep_zips_sub hrefs _ u hu with h1 | h1
    · rcases extractStep_zips_sub h1 with h2 | h2
      · exact Or.inl h2
      · exact Or.inr h2
    · exact Or.inr h1

theorem foldl_claimAndPush_zips :
    ∀ (links : List Str) (st : CrawlState),
      (links.foldl claimAndPush st).zip_urls = st.zip_urls
  | [], _ => rfl
  | link :: links, st => by
    rw [List.foldl_cons, foldl_claimAndPush_zips links]
    unfold claimAndPush
    split <;> rfl

theorem crawl_url_collected {file_types : List Str} {base_url : Str}
    (resolve : Str → Str → Str) (fetch : Str → Option (List Str))
    {st : CrawlState} (url : Str)
    (h : ∀ u ∈ st.zip_urls,
      is_valid_url base_url u = true ∧ is_target_file file_types u = true) :
    ∀ u ∈ (crawl_url file_types base_url resolve fetch st url).zip_urls,
      is_valid_url base_url u = true ∧ is_target_file file_types u = true := by
  intro u hu
  rw [crawl_url] at hu
  split at hu
  · exact h u hu
  · rcases hf : fetch url with _ | hrefs
    · rw [hf] at hu
      exact h u hu
    · rw [hf] at hu
      simp only [foldl_claimAndPush_zips] at hu
      rcases foldl_extractStep_zips_sub hrefs _ u hu with h1 | h1
      · exact h u h1
      · exact h1

theorem runCrawl_collected {file_types : List Str} {base_url : Str}
    (resolve : Str → Str → Str) (fetch : Str → Option (List Str)) :
    ∀ (fuel : Nat) (st : CrawlState),
      (∀ u ∈ st.zip_urls,
        is_valid_url base_url u = true ∧ is_target_file file_types u = true) →
      ∀ u ∈ (runCrawl file_types base_url resolve fetch fuel st).zip_urls,
        is_valid_url base_url u = true ∧ is_target_file file_types u = true
  | 0, _, h => h
  | fuel + 1, st, h => by
    rw [runCrawl]
    split
    · exact h
    · exact runCrawl_collected resolve fetch fuel _
        (crawl_url_collected resolve fetch _ (fun u hu => h u hu))

/-- C8: the saved output is exactly the collected set, one URL per line each
terminated by a newline, sorted ascending in the code-point lexicographic
order, duplicate-free, with no header or footer; consequently any two runs
whose final collected sets are equal produce identical output, whatever
order concurrency discovered the URLs in. -/
theorem C8_sorted_deterministic_output (z1 z2 : List Str) (u : Str)
    (h : ∀ v, v ∈ z1 ↔ v ∈ z2) :
    save_results z1 = save_results z2 ∧
    save_results z1 = ((outputLines z1).map (fun url => url ++ ['\n'])).flatten ∧
    List.Sorted (· ≤ ·) (outputLines z1) ∧
    (outputLines z1).Nodup ∧
    (u ∈ outputLines z1 ↔ u ∈ z1) := by
  refine ⟨?_, rfl, sorted_outputLines z1, nodup_outputLines z1, mem_outputLines⟩
  rw [save_results, save_results, outputLines_eq_of_same_mem h]

/-- Witness for C8: two collections of the same two zip URLs, discovered in
different orders and multiplicities, save identically. -/
theorem C8_witness :
    save_results ["http://h/files/b.zip".data, "http://h/files/a.zip".data] =
      save_results ["http://h/files/a.zip".data, "http://h/files/b.zip".data,
        "http://h/files/a.zip".data] ∧
    save_results ["http://h/files/b.zip".data, "http://h/files/a.zip".data] =
      ((outputLines ["http://h/files/b.zip".data, "http://h/files/a.zip".data]).map
        (fun url => url ++ ['\n'])).flatten ∧
    List.Sorted (· ≤ ·)
      (outputLines ["http://h/files/b.zip".data, "http://h/files/a.zip".data]) ∧
    (outputLines ["http://h/files/b.zip".data, "http://h/files/a.zip".data]).Nodup ∧
    ("http://h/files/a.zip".data ∈
        outputLines ["http://h/files/b.zip".data, "http://h/files/a.zip".data] ↔
      "http://h/files/a.zip".data ∈
        ["http://h/files/b.zip".data, "http://h/files/a.zip".data]) :=
  C8_sorted_deterministic_output
    ["http://h/files/b.zip".data, "http://h/files/a.zip".data]
    ["http://h/files/a.zip".data, "http://h/files/b.zip".data,
      "http://h/files/a.zip".data]
    "http://h/files/a.zip".data
    (by intro v; simp only [List.mem_cons]; tauto)

/-- C10: every URL in the collected set of a crawl — equivalently, every
line of the saved output — passed the scope filter, matches a configured
target extension, is not denylist-skipped, and (for extension entries that
do not end in the separator) is not a directory URL. -/
theorem C10_collected_are_in_scope_targets (cfg base_url : Str)
    (resolve : Str → Str → Str) (fetch : Str → Option (List Str)) (fuel : Nat) (u : Str)
    (hext : ∀ ext ∈ parse_file_types cfg, pyEndsWith ext ['/'] = false)
    (hu : u ∈ (crawl (parse_file_types cfg) base_url resolve fetch fuel).zip_urls ∨
          u ∈ outputLines (crawl (parse_file_types cfg) base_url resolve fetch fuel).zip_urls) :
    is_valid_url base_url u = true ∧
    is_target_file (parse_file_types cfg) u = true ∧
    should_skip_file (parse_file_types cfg) u = false ∧
    is_directory u = false ∧
    u ∈ outputLines (crawl (parse_file_types cfg) base_url resolve fetch fuel).zip_urls := by
  have hz : u ∈ (crawl (parse_file_types cfg) base_url resolve fetch fuel).zip_urls := by
    rcases hu with h | h
    · exact h
    · exact mem_outputLines.mp h
  obtain ⟨hvalid, htarget⟩ :=
    runCrawl_collected resolve fetch fuel (initState base_url)
      (by intro v hv; simp [initState] at hv) u hz
  refine ⟨hvalid, htarget, ?_, ?_, mem_outputLines.mpr hz⟩
  · simp [should_skip_file, htarget]
  · cases hd : is_directory u with
    | false => rfl
    | true =>
      exfalso
      have hno : ∀ ext ∈ parse_file_types cfg, ext ≠ [] ∧ pyEndsWith ext ['/'] = false :=
        fun ext hm => ⟨parse_file_types_ne_nil ext hm, hext ext hm⟩
      have hfalse := no_suffix_match_of_trailing_slash hd hno
      rw [is_target_file, hfalse] at htarget
      exact Bool.false_ne_true htarget

/-- Witness for C10: the zip collected from the root page of the two-level
scenario tree. -/
theorem C10_witness :
    is_valid_url exRoot "http://h/files/x.zip".data = true ∧
    is_target_file (parse_file_types "zip".data) "http://h/files/x.zip".data = true ∧
    should_skip_file (parse_file_types "zip".data) "http://h/files/x.zip".data = false ∧
    is_directory "http://h/files/x.zip".data = false ∧
    "http://h/files/x.zip".data ∈
      outputLines (crawl (parse_file_types "zip".data) exRoot exResolve exFetchTree 2).zip_urls :=
  C10_collected_are_in_scope_targets "zip".data exRoot exResolve exFetchTree 2
    "http://h/files/x.zip".data (by decide) (Or.inl (by decide))
